import Mathlib

/-!
Verification development for the github-activity-forensics archive-analytics
program (src/app.py).  The Python source is shallowly embedded: the
fault-tolerant line reader (`DataReader`), the analytics engine
(`AnalyticsEngine`) and their helper functions are translated into
executable Lean definitions, and the behavioural claims about them are
settled as theorems below the definitions.
-/

set_option maxHeartbeats 1000000

namespace App

/-- Python exception classes that the embedded code can raise.
`valueError` models `ValueError` (also raised by `datetime.strptime` on a
parse failure), `typeError` models `TypeError` (e.g. a dataclass
constructor invoked with a missing required keyword argument, or
`os.path.join(None, f)`), `attributeError` models `AttributeError`
(e.g. calling `.items()` on a non-dict), and `keyError` models `KeyError`
(subscripting a dict with an absent key). -/
inductive PyError where
  | valueError
  | typeError
  | attributeError
  | keyError
  deriving DecidableEq, Repr

/-- The values `json.loads` can produce: JSON documents.  An object is the
resulting Python dict, represented as its key/value pairs in insertion
order. -/
inductive Json where
  | null
  | bool (b : Bool)
  | num (n : Int)
  | str (s : String)
  | arr (elems : List Json)
  | obj (fields : List (String × Json))

/-- Dict lookup (`data[k]` / membership): first binding of the key. -/
def lookupJson (fields : List (String × Json)) (k : String) : Option Json :=
  match fields with
  | [] => none
  | (k', v) :: rest => if k' = k then some v else lookupJson rest k

/-- The `actor` sub-object projected onto the `User` dataclass
(src/app.py lines 41-46).  Python dataclasses do not check field types, so
each field holds the raw JSON value that was passed. -/
structure RawUser where
  id : Json
  login : Json
  url : Json
  avatar_url : Json

/-- The `repo` sub-object projected onto the `Repo` dataclass
(src/app.py lines 49-53). -/
structure RawRepo where
  id : Json
  name : Json
  url : Json

/-- A fully assembled `Action` as yielded by `DataReader.__next__`
(src/app.py lines 56-63): the top-level fields keep their raw JSON values
while `actor`/`repo` have been replaced by the projected sub-objects
(lines 111-112). -/
structure RawAction where
  id : Json
  type : Json
  public : Json
  actor : RawUser
  repo : RawRepo
  created_at : Json

/-- One step of `obj_type(**filtered_data)`: fetching a required dataclass
field from the (already key-filtered) dict.  A missing required keyword
argument raises `TypeError`; keys not in the field set were filtered out
beforehand, so only presence of the required keys matters. -/
def requireField (fields : List (String × Json)) (k : String) : Except PyError Json :=
  match lookupJson fields k with
  | some v => .ok v
  | none => .error .typeError

/-- Subscripting `data[k]` on a dict: `KeyError` when the key is absent
(src/app.py lines 111-112). -/
def getItem (fields : List (String × Json)) (k : String) : Except PyError Json :=
  match lookupJson fields k with
  | some v => .ok v
  | none => .error .keyError

/-- Model of `DataReader._dict_to_obj(data, User)` (src/app.py lines 93-96):
`data.items()` raises `AttributeError` on a non-dict; then the dict is
filtered to the dataclass field names and the dataclass constructor
requires every field to be present (missing field: `TypeError`). -/
def buildUser (j : Json) : Except PyError RawUser :=
  match j with
  | .obj fs =>
    match requireField fs "id" with
    | .error e => .error e
    | .ok i =>
    match requireField fs "login" with
    | .error e => .error e
    | .ok lg =>
    match requireField fs "url" with
    | .error e => .error e
    | .ok u =>
    match requireField fs "avatar_url" with
    | .error e => .error e
    | .ok av => .ok ⟨i, lg, u, av⟩
  | _ => .error .attributeError

/-- Model of `DataReader._dict_to_obj(data, Repo)` (src/app.py lines 93-96). -/
def buildRepo (j : Json) : Except PyError RawRepo :=
  match j with
  | .obj fs =>
    match requireField fs "id" with
    | .error e => .error e
    | .ok i =>
    match requireField fs "name" with
    | .error e => .error e
    | .ok nm =>
    match requireField fs "url" with
    | .error e => .error e
    | .ok u => .ok ⟨i, nm, u⟩
  | _ => .error .attributeError

/-- The body of the `try` block in `DataReader.__next__`
(src/app.py lines 109-113) applied to one decoded line:
`action = self._dict_to_obj(data, Action)` (all six `Action` fields are
required by the dataclass constructor, so this is where a missing
top-level key raises `TypeError`), then
`action.actor = self._dict_to_obj(data["actor"], User)` and
`action.repo = self._dict_to_obj(data["repo"], Repo)`. -/
def buildAction (data : Json) : Except PyError RawAction :=
  match data with
  | .obj fs =>
    match requireField fs "id" with
    | .error e => .error e
    | .ok i =>
    match requireField fs "type" with
    | .error e => .error e
    | .ok t =>
    match requireField fs "public" with
    | .error e => .error e
    | .ok p =>
    match requireField fs "actor" with
    | .error e => .error e
    | .ok _ =>
    match requireField fs "repo" with
    | .error e => .error e
    | .ok _ =>
    match requireField fs "created_at" with
    | .error e => .error e
    | .ok ca =>
    match getItem fs "actor" with
    | .error e => .error e
    | .ok acJ =>
    match buildUser acJ with
    | .error e => .error e
    | .ok ac =>
    match getItem fs "repo" with
    | .error e => .error e
    | .ok rpJ =>
    match buildRepo rpJ with
    | .error e => .error e
    | .ok rp => .ok ⟨i, t, p, ac, rp, ca⟩
  | _ => .error .attributeError

/-- Outcome of processing one line inside `DataReader.__next__`'s loop. -/
inductive LineOutcome where
  | event (a : RawAction)
  | skip
  | fatal (e : PyError)

/-- One iteration of the loop in `DataReader.__next__`
(src/app.py lines 107-120) on a line.  A line that `json.loads` rejects is
modelled as `none` (the `except json.JSONDecodeError` handler prints and
continues); a decoded document is processed by `buildAction`, with
`KeyError` caught (`except KeyError` handler) and every other exception
uncaught, aborting the iteration. -/
def decodeLine (line : Option Json) : LineOutcome :=
  match line with
  | none => .skip
  | some data =>
    match buildAction data with
    | .ok a => .event a
    | .error .keyError => .skip
    | .error e => .fatal e

/-- Driving `DataReader` iteration over a sequence of lines: the events
yielded before the iterator is exhausted or an uncaught exception escapes,
together with the escaping exception (if any). -/
def readLines (lines : List (Option Json)) : List RawAction × Option PyError :=
  match lines with
  | [] => ([], none)
  | l :: rest =>
    match decodeLine l with
    | .event a => ((readLines rest).1.cons a, (readLines rest).2)
    | .skip => readLines rest
    | .fatal e => ([], some e)

/-- A syntactically complete archive line: all dataclass fields present. -/
def goodLine : Json :=
  .obj [("id", .str "100"), ("type", .str "PushEvent"), ("public", .bool true),
        ("actor", .obj [("id", .num 7), ("login", .str "alice"),
                        ("url", .str "u"), ("avatar_url", .str "av")]),
        ("repo", .obj [("id", .num 3), ("name", .str "r"), ("url", .str "ru")]),
        ("created_at", .str "2015-01-01T00:00:00Z")]

/-- The `RawAction` that `goodLine` decodes to. -/
def goodAction : RawAction :=
  ⟨.str "100", .str "PushEvent", .bool true,
   ⟨.num 7, .str "alice", .str "u", .str "av"⟩,
   ⟨.num 3, .str "r", .str "ru"⟩,
   .str "2015-01-01T00:00:00Z"⟩

/-- An otherwise complete line with the required `actor` key absent. -/
def noActorLine : Json :=
  .obj [("id", .str "100"), ("type", .str "PushEvent"), ("public", .bool true),
        ("repo", .obj [("id", .num 3), ("name", .str "r"), ("url", .str "ru")]),
        ("created_at", .str "2015-01-01T00:00:00Z")]

/-! ## The `DataReader` constructor (src/app.py lines 67-81)

`os.listdir` is an external collaborator and is passed in as a `listing`
function.  Python truthiness on the optional string arguments is modelled
by `truthyOpt` (both `None` and the empty string are falsy). -/

/-- Truthiness of an optional string argument (`if file:` / `elif directory:`). -/
def truthyOpt (o : Option String) : Bool :=
  match o with
  | some s => !(s == "")
  | none => false

/-- Model of `os.path.join(d, f)` for POSIX paths: `f` if `f` is absolute, else
`d` and `f` glued with a separator unless `d` is empty or already ends in
one. -/
def pyJoin (d f : String) : String :=
  if f.data.head? = some '/' then f
  else if d = "" then f
  else if d.data.getLast? = some '/' then d ++ f
  else d ++ "/" ++ f

/-- Model of `str.endswith(suffix)` on actual strings, by character comparison. -/
def strEndsWith (s p : String) : Bool :=
  p.data.reverse.isPrefixOf s.data.reverse

/-- Stable ascending insertion of a string into a sorted list. -/
def insertAsc (x : String) : List String → List String
  | [] => [x]
  | y :: ys => if x ≤ y then x :: y :: ys else y :: insertAsc x ys

/-- Model of `sorted` on a list of strings (stable, ascending). -/
def sortStrings : List String → List String
  | [] => []
  | x :: xs => insertAsc x (sortStrings xs)

/-- Model of `DataReader.__init__(directory, file)` (src/app.py lines 67-77),
returning the list `self.files` or the exception that construction raises:
with a truthy `file`, `os.path.join(directory, file)` raises `TypeError`
when `directory` is `None`; with a falsy `file` and truthy `directory` the
`.json`-suffixed entries of the sorted directory listing are joined; with
both falsy, `ValueError` is raised. -/
def dataReaderInit (listing : String → List String) (directory : Option String)
    (file : Option String) : Except PyError (List String) :=
  if truthyOpt file then
    match directory with
    | none => .error .typeError
    | some d => .ok [pyJoin d (file.getD "")]
  else
    match directory with
    | some d =>
      if !(d == "") then
        .ok (((sortStrings (listing d)).filter (fun f => strEndsWith f ".json")).map
          (fun f => pyJoin d f))
      else .error .valueError
    | none => .error .valueError

/-- Running a constructed reader to exhaustion: the per-file line
sequences (produced by the external file-opening collaborator `contents`)
are consumed in file-list order, a finished file being closed and the next
opened (src/app.py lines 83-91, 101-116). -/
def readerRun (contents : String → List (Option Json)) (files : List String) :
    List RawAction × Option PyError :=
  readLines (files.flatMap contents)

/-! ## Data model of the analytics engine (src/app.py lines 28-63, 136-138)

`AnalyticsEngine` buffers the events the reader yields.  For the engine
queries the events are modelled with the field types the archive schema
assigns them (integer ids, string names/urls/timestamps), matching the
spec data model. -/

/-- The `ActionCategory` enum (src/app.py lines 28-32). -/
inductive ActionCategory where
  | ACTIVITY
  | PRS
  | ISSUES
  | COMMITS
  deriving DecidableEq, Repr

/-- The `value` of each enum member. -/
def ActionCategory.value : ActionCategory → String
  | .ACTIVITY => "any"
  | .PRS => "PullRequestEvent"
  | .ISSUES => "IssuesEvent"
  | .COMMITS => "PushEvent"

/-- The `User` dataclass (src/app.py lines 41-46) with schema field types. -/
structure User where
  id : Int
  login : String
  url : String
  avatar_url : String
  deriving DecidableEq, Repr

/-- The `Repo` dataclass (src/app.py lines 49-53) with schema field types. -/
structure Repo where
  id : Int
  name : String
  url : String
  deriving DecidableEq, Repr

/-- The `Action` dataclass (src/app.py lines 56-63) with schema field types. -/
structure Action where
  id : String
  type : String
  public : Bool
  actor : User
  repo : Repo
  created_at : String
  deriving DecidableEq, Repr

/-- The `ResUser` dataclass (src/app.py lines 123-126): `ranking` holds the score. -/
structure ResUser where
  id : Int
  ranking : Nat
  deriving DecidableEq, Repr

/-- The `ResRepo` dataclass (src/app.py lines 129-133). -/
structure ResRepo where
  name : String
  url : String
  num_users : Nat
  deriving DecidableEq, Repr

/-! ## `AnalyticsEngine.top_k_users_by` (src/app.py lines 140-160) -/

/-- Line 150, `action_filter = category.value if category else ActionCategory.ACTIVITY.value`
(line 150): an enum member is always truthy. -/
def actionFilterOf : Option ActionCategory → String
  | some c => c.value
  | none => "any"

/-- Statement `users[k] += inc` on a `defaultdict(int)`: an absent key is first
inserted with value `0`, so the entry exists afterwards even when `inc`
is `0`.  Python dicts preserve insertion order, modelled by an association
list with new keys appended at the end. -/
def updateCounter (m : List (Int × Nat)) (k : Int) (inc : Nat) : List (Int × Nat) :=
  match m with
  | [] => [(k, inc)]
  | (k', v) :: rest => if k' = k then (k', v + inc) :: rest else (k', v) :: updateCounter rest k inc

/-- The increment contributed by one event (line 154-156):
`action.type == action_filter or action_filter == "any"` added as an int. -/
def incOf (f : String) (a : Action) : Nat :=
  if a.type = f ∨ f = "any" then 1 else 0

/-- The `users` counter dict after the accumulation loop (lines 152-156). -/
def buildUsers (actions : List Action) (f : String) : List (Int × Nat) :=
  actions.foldl (fun m a => updateCounter m a.actor.id (incOf f a)) []

/-- Counter lookup with the `defaultdict` default `0`. -/
def lookupD (m : List (Int × Nat)) (k : Int) : Nat :=
  match m with
  | [] => 0
  | (k', v) :: rest => if k' = k then v else lookupD rest k

/-- The per-event predicate counted for an actor under a filter string
(used to state what a counter entry holds). -/
def hitP (f : String) (aid : Int) (a : Action) : Bool :=
  decide (a.actor.id = aid) && decide (a.type = f ∨ f = "any")

/-- The score `top_k_users_by` assigns to an actor under a category:
the actor's entry in the accumulated counter (0 when absent). -/
def scoreOf (actions : List Action) (category : Option ActionCategory) (aid : Int) : Nat :=
  lookupD (buildUsers actions (actionFilterOf category)) aid

/-- Line 158, `sorted(users.items(), key=lambda x: x[1], reverse=True)`:
a stable descending sort by count (insertion sort, which agrees with
Python's stable sort on the insertion-ordered dict items). -/
def sortDesc (l : List (Int × Nat)) : List (Int × Nat) :=
  l.insertionSort fun a b => b.2 ≤ a.2

instance : IsTotal (Int × Nat) (fun a b => b.2 ≤ a.2) :=
  ⟨fun a b => le_total b.2 a.2⟩

instance : IsTrans (Int × Nat) (fun a b => b.2 ≤ a.2) :=
  ⟨fun _ _ _ hab hbc => le_trans hbc hab⟩

/-- Python list slicing `lst[:k]` for an arbitrary integer `k`:
a negative `k` counts from the end (`max(0, len + k)` elements). -/
def pySliceTo {α : Type} (l : List α) (k : Int) : List α :=
  l.take (if 0 ≤ k then k.toNat else ((l.length : Int) + k).toNat)

/-- Model of `AnalyticsEngine.top_k_users_by(target, category)`
(src/app.py lines 140-160). -/
def top_k_users_by (actions : List Action) (target : Int)
    (category : Option ActionCategory) : List ResUser :=
  (pySliceTo (sortDesc (buildUsers actions (actionFilterOf category))) target).map
    (fun p => ⟨p.1, p.2⟩)

/-! ## `datetime.strptime(s, "%Y-%m-%dT%H:%M:%SZ")` (src/app.py line 169)

CPython compiles each `%`-directive to a regular expression
(`Lib/_strptime.py`) and then validates the fields through the `datetime`
constructor.  The directives used here match

  %Y: four digits        %m: 1[0-2]|0[1-9]|[1-9]
  %d: 3[01]|[12][0-9]|0[1-9]|[1-9]| [1-9]
  %H: 2[0-3]|[0-1][0-9]|[0-9]    %M: [0-5][0-9]|[0-9]
  %S: 6[0-1]|[0-5][0-9]|[0-9]

so one- and two-digit variants are both accepted for `%m %d %H %M %S`.
Character classes are expressed on the character code (`'0'` is 48).
Each `...Alts` function returns the regex alternatives, in the pattern's
order, as value/remaining-input pairs; `firstValid` commits to the first
alternative whose continuation succeeds, which on this format produces
exactly the full-string matches of CPython's regex. -/

/-- The components `strptime` extracts (a naive `datetime` value). -/
structure DT where
  year : Nat
  month : Nat
  day : Nat
  hour : Nat
  minute : Nat
  second : Nat
  deriving DecidableEq, Repr

/-- Alternatives of the `%m` directive: 1[0-2]|0[1-9]|[1-9]. -/
def monthAlts : List Char → List (Nat × List Char)
  | c1 :: c2 :: rest =>
    (if c1.toNat = 49 ∧ 48 ≤ c2.toNat ∧ c2.toNat ≤ 50 then [(10 + (c2.toNat - 48), rest)] else []) ++
    (if c1.toNat = 48 ∧ 49 ≤ c2.toNat ∧ c2.toNat ≤ 57 then [(c2.toNat - 48, rest)] else []) ++
    (if 49 ≤ c1.toNat ∧ c1.toNat ≤ 57 then [(c1.toNat - 48, c2 :: rest)] else [])
  | [c1] => if 49 ≤ c1.toNat ∧ c1.toNat ≤ 57 then [(c1.toNat - 48, [])] else []
  | [] => []

/-- Alternatives of the `%d` directive: 3[01]|[12][0-9]|0[1-9]|[1-9]| [1-9]. -/
def dayAlts : List Char → List (Nat × List Char)
  | c1 :: c2 :: rest =>
    (if c1.toNat = 51 ∧ 48 ≤ c2.toNat ∧ c2.toNat ≤ 49 then [(30 + (c2.toNat - 48), rest)] else []) ++
    (if (c1.toNat = 49 ∨ c1.toNat = 50) ∧ 48 ≤ c2.toNat ∧ c2.toNat ≤ 57 then
      [(10 * (c1.toNat - 48) + (c2.toNat - 48), rest)] else []) ++
    (if c1.toNat = 48 ∧ 49 ≤ c2.toNat ∧ c2.toNat ≤ 57 then [(c2.toNat - 48, rest)] else []) ++
    (if 49 ≤ c1.toNat ∧ c1.toNat ≤ 57 then [(c1.toNat - 48, c2 :: rest)] else []) ++
    (if c1.toNat = 32 ∧ 49 ≤ c2.toNat ∧ c2.toNat ≤ 57 then [(c2.toNat - 48, rest)] else [])
  | [c1] => if 49 ≤ c1.toNat ∧ c1.toNat ≤ 57 then [(c1.toNat - 48, [])] else []
  | [] => []

/-- Alternatives of the `%H` directive: 2[0-3]|[0-1][0-9]|[0-9]. -/
def hourAlts : List Char → List (Nat × List Char)
  | c1 :: c2 :: rest =>
    (if c1.toNat = 50 ∧ 48 ≤ c2.toNat ∧ c2.toNat ≤ 51 then [(20 + (c2.toNat - 48), rest)] else []) ++
    (if (c1.toNat = 48 ∨ c1.toNat = 49) ∧ 48 ≤ c2.toNat ∧ c2.toNat ≤ 57 then
      [(10 * (c1.toNat - 48) + (c2.toNat - 48), rest)] else []) ++
    (if 48 ≤ c1.toNat ∧ c1.toNat ≤ 57 then [(c1.toNat - 48, c2 :: rest)] else [])
  | [c1] => if 48 ≤ c1.toNat ∧ c1.toNat ≤ 57 then [(c1.toNat - 48, [])] else []
  | [] => []

/-- Alternatives of the `%M` directive: [0-5][0-9]|[0-9]. -/
def minuteAlts : List Char → List (Nat × List Char)
  | c1 :: c2 :: rest =>
    (if 48 ≤ c1.toNat ∧ c1.toNat ≤ 53 ∧ 48 ≤ c2.toNat ∧ c2.toNat ≤ 57 then
      [(10 * (c1.toNat - 48) + (c2.toNat - 48), rest)] else []) ++
    (if 48 ≤ c1.toNat ∧ c1.toNat ≤ 57 then [(c1.toNat - 48, c2 :: rest)] else [])
  | [c1] => if 48 ≤ c1.toNat ∧ c1.toNat ≤ 57 then [(c1.toNat - 48, [])] else []
  | [] => []

/-- Alternatives of the `%S` directive: 6[0-1]|[0-5][0-9]|[0-9]. -/
def secondAlts : List Char → List (Nat × List Char)
  | c1 :: c2 :: rest =>
    (if c1.toNat = 54 ∧ 48 ≤ c2.toNat ∧ c2.toNat ≤ 49 then [(60 + (c2.toNat - 48), rest)] else []) ++
    (if 48 ≤ c1.toNat ∧ c1.toNat ≤ 53 ∧ 48 ≤ c2.toNat ∧ c2.toNat ≤ 57 then
      [(10 * (c1.toNat - 48) + (c2.toNat - 48), rest)] else []) ++
    (if 48 ≤ c1.toNat ∧ c1.toNat ≤ 57 then [(c1.toNat - 48, c2 :: rest)] else [])
  | [c1] => if 48 ≤ c1.toNat ∧ c1.toNat ≤ 57 then [(c1.toNat - 48, [])] else []
  | [] => []

/-- Commit to the first alternative whose continuation succeeds. -/
def firstValid {α : Type} (alts : List (Nat × List Char)) (k : Nat → List Char → Option α) :
    Option α :=
  match alts with
  | [] => none
  | (v, r) :: t =>
    match k v r with
    | some x => some x
    | none => firstValid t k

/-- The `%Y` directive: exactly four digits. -/
def pYear : List Char → Option (Nat × List Char)
  | c1 :: c2 :: c3 :: c4 :: rest =>
    if (48 ≤ c1.toNat ∧ c1.toNat ≤ 57) ∧ (48 ≤ c2.toNat ∧ c2.toNat ≤ 57) ∧
       (48 ≤ c3.toNat ∧ c3.toNat ≤ 57) ∧ (48 ≤ c4.toNat ∧ c4.toNat ≤ 57) then
      some (1000 * (c1.toNat - 48) + 100 * (c2.toNat - 48) + 10 * (c3.toNat - 48) +
        (c4.toNat - 48), rest)
    else none
  | _ => none

/-- Match a literal character of the format string. -/
def expectC (c : Char) : List Char → Option (List Char)
  | x :: r => if x = c then some r else none
  | [] => none

/-- February leap rule of the Gregorian calendar (`calendar.isleap`). -/
def leapYear (y : Nat) : Bool :=
  y % 4 = 0 && (!(y % 100 = 0) || y % 400 = 0)

/-- Days in a month, as validated by the `datetime` constructor. -/
def daysInMonth (y mo : Nat) : Nat :=
  if mo = 2 then (if leapYear y then 29 else 28)
  else if mo = 4 ∨ mo = 6 ∨ mo = 9 ∨ mo = 11 then 30
  else 31

/-- Sequencing of a value/remaining-input pair. -/
def pbind {β : Type} (o : Option (Nat × List Char)) (f : Nat → List Char → Option β) :
    Option β :=
  match o with
  | none => none
  | some (v, r) => f v r

/-- Sequencing of a literal-character match. -/
def onext {β : Type} (o : Option (List Char)) (f : List Char → Option β) : Option β :=
  match o with
  | none => none
  | some r => f r

/-- Model of `datetime.strptime(s, "%Y-%m-%dT%H:%M:%SZ")`: regex match of the whole
string followed by the `datetime(year, month, day, hour, minute, second)`
constructor checks (`1 <= year`, `day <= days in month`, `second <= 59`;
the regex already bounds the other fields).  `none` models the raised
`ValueError`. -/
def parseTs (cs : List Char) : Option DT :=
  pbind (pYear cs) fun y r1 =>
  onext (expectC '-' r1) fun r2 =>
  firstValid (monthAlts r2) fun mo r3 =>
  onext (expectC '-' r3) fun r4 =>
  firstValid (dayAlts r4) fun d r5 =>
  onext (expectC 'T' r5) fun r6 =>
  firstValid (hourAlts r6) fun h r7 =>
  onext (expectC ':' r7) fun r8 =>
  firstValid (minuteAlts r8) fun mi r9 =>
  onext (expectC ':' r9) fun r10 =>
  firstValid (secondAlts r10) fun s r11 =>
  onext (expectC 'Z' r11) fun r12 =>
  if r12 = [] ∧ 1 ≤ y ∧ d ≤ daysInMonth y mo ∧ s ≤ 59 then
    some ⟨y, mo, d, h, mi, s⟩
  else none

/-- The decimal digit character for `n < 10`. -/
def toDigit (n : Nat) : Char := Char.ofNat (48 + n)

/-- Zero-padded two-digit rendering (`%H`, `%M`, `%S`, and the canonical
`MM`/`DD`). -/
def pad2 (n : Nat) : List Char := [toDigit (n / 10), toDigit (n % 10)]

/-- Zero-padded four-digit rendering (`YYYY`). -/
def pad4 (n : Nat) : List Char :=
  [toDigit (n / 1000), toDigit (n / 100 % 10), toDigit (n / 10 % 10), toDigit (n % 10)]

/-- Model of `dt.strftime("%H:%M:%S")` (src/app.py line 170). -/
def timeOnlyStr (dt : DT) : String :=
  ⟨pad2 dt.hour ++ ':' :: (pad2 dt.minute ++ ':' :: pad2 dt.second)⟩

/-- The canonical `YYYY-MM-DDTHH:MM:SSZ` rendering of six components. -/
def renderTs (y mo d h mi s : Nat) : List Char :=
  pad4 y ++ '-' :: (pad2 mo ++ '-' :: (pad2 d ++ 'T' :: (pad2 h ++ ':' ::
    (pad2 mi ++ ':' :: (pad2 s ++ ['Z'])))))

/-- Component ranges accepted by the `datetime` constructor. -/
def validDT (y mo d h mi s : Nat) : Prop :=
  1 ≤ y ∧ y ≤ 9999 ∧ 1 ≤ mo ∧ mo ≤ 12 ∧ 1 ≤ d ∧ d ≤ daysInMonth y mo ∧
    h ≤ 23 ∧ mi ≤ 59 ∧ s ≤ 59

instance (y mo d h mi s : Nat) : Decidable (validDT y mo d h mi s) := by
  unfold validDT; infer_instance

/-- A timestamp in the strict `YYYY-MM-DDTHH:MM:SSZ` format: the canonical
zero-padded rendering of in-range components. -/
def wellFormedTs (str : String) : Prop :=
  ∃ y mo d h mi s, validDT y mo d h mi s ∧ str.data = renderTs y mo d h mi s

/-- The literal time-of-day portion of a strict-format timestamp string
(characters 11 through 18). -/
def timeSlice (s : String) : String := ⟨(s.data.drop 11).take 8⟩

/-- Model of `AnalyticsEngine.commits_at(target)` (src/app.py lines 162-173):
scan the buffer, parse each `created_at` (an unparseable one raises),
return `True` on the first event whose rendered time-of-day equals
`target`, else `False`. -/
def commits_at (actions : List Action) (target : String) : Except PyError Bool :=
  match actions with
  | [] => .ok false
  | a :: rest =>
    match parseTs a.created_at.data with
    | none => .error .valueError
    | some dt => if timeOnlyStr dt = target then .ok true else commits_at rest target

/-! ## `AnalyticsEngine.filter_repo_commit` (src/app.py lines 175-202) -/

/-- The per-repository accumulator value of the `repos` defaultdict:
first-recorded name/url and the set of contributing actor ids.  The
Python `set` is modelled as a duplicate-free list (insertion order); only
its membership and size are ever consumed. -/
structure RepoAgg where
  name : String
  url : String
  users : List Int
  deriving DecidableEq, Repr

/-- The defaultdict default `{"name": "", "url": "", "users": set()}`. -/
def emptyAgg : RepoAgg := ⟨"", "", []⟩

/-- A `repos[rid]`-style update: apply `f` to the current (or default)
value, inserting a fresh key at the end (dict insertion order). -/
def updRepo (m : List (Int × RepoAgg)) (rid : Int) (f : RepoAgg → RepoAgg) :
    List (Int × RepoAgg) :=
  match m with
  | [] => [(rid, f emptyAgg)]
  | (k, v) :: rest => if k = rid then (k, f v) :: rest else (k, v) :: updRepo rest rid f

/-- The loop body of `filter_repo_commit` (lines 180-189): only
`PushEvent`s are processed; the name/url are recorded while the stored
name is still empty; the actor id is added to the repository's set. -/
def pushStep (m : List (Int × RepoAgg)) (a : Action) : List (Int × RepoAgg) :=
  if a.type = "PushEvent" then
    updRepo m a.repo.id (fun g =>
      let g1 := if g.name = "" then { g with name := a.repo.name, url := a.repo.url } else g
      { g1 with users := if a.actor.id ∈ g1.users then g1.users else g1.users ++ [a.actor.id] })
  else m

/-- The numeric inclusion test of lines 195-197:
`(minimum_target is None or num_users >= minimum_target) and num_users <= maximum_target`. -/
def inRangeCond (maximum_target : Int) (minimum_target : Option Int) (n : Nat) : Bool :=
  (minimum_target.all fun m => decide (m ≤ (n : Int))) && decide ((n : Int) ≤ maximum_target)

/-- Model of `AnalyticsEngine.filter_repo_commit(maximum_target, minimum_target)`
(src/app.py lines 175-202). -/
def filter_repo_commit (actions : List Action) (maximum_target : Int)
    (minimum_target : Option Int) : List ResRepo :=
  ((actions.foldl pushStep []).filter
      (fun p => inRangeCond maximum_target minimum_target p.2.users.length)).map
    (fun p => ⟨p.2.name, p.2.url, p.2.users.length⟩)

/-! ## The engine object and its queries as state transformers

`AnalyticsEngine.__init__` (lines 136-138) fixes the buffer; none of the
three query methods assigns to `self.actions` or mutates it in place
(their loops only read it and write method-local names), so each method,
embedded as a function from the receiver to the post-call receiver plus
the return value, leaves the receiver unchanged. -/

/-- The `AnalyticsEngine` class (src/app.py lines 136-138). -/
structure AnalyticsEngine where
  actions : List Action
  deriving DecidableEq, Repr

/-- Method call `e.top_k_users_by(target, category)`: post-state and result. -/
def AnalyticsEngine.topKQ (e : AnalyticsEngine) (target : Int)
    (category : Option ActionCategory) : AnalyticsEngine × List ResUser :=
  (e, top_k_users_by e.actions target category)

/-- Method call `e.commits_at(target)`: post-state and result. -/
def AnalyticsEngine.commitsAtQ (e : AnalyticsEngine) (target : String) :
    AnalyticsEngine × Except PyError Bool :=
  (e, commits_at e.actions target)

/-- Method call `e.filter_repo_commit(mx, mn)`: post-state and result. -/
def AnalyticsEngine.filterRepoQ (e : AnalyticsEngine) (mx : Int) (mn : Option Int) :
    AnalyticsEngine × List ResRepo :=
  (e, filter_repo_commit e.actions mx mn)

/-! ## Specification-level functions

Direct (per-key) computations over the event list, used to state what the
single-pass accumulators of the engine compute. -/

/-- First-occurrence deduplication, preserving order. -/
def dedupFirst : List Int → List Int
  | [] => []
  | x :: xs => x :: dedupFirst (xs.filter fun y => y != x)
termination_by l => l.length
decreasing_by
  simp only [List.length_cons]
  exact Nat.lt_succ_of_le (List.length_filter_le _ _)

/-- The push-category events of the buffer. -/
def pushEvts (actions : List Action) : List Action :=
  actions.filter fun a => a.type == "PushEvent"

/-- Repository ids with at least one push event, in first-seen order. -/
def ridsInOrder (actions : List Action) : List Int :=
  dedupFirst ((pushEvts actions).map fun a => a.repo.id)

/-- Distinct contributing actor ids of a repository's push events,
in first-seen order. -/
def contribs (actions : List Action) (rid : Int) : List Int :=
  dedupFirst (((pushEvts actions).filter fun a => a.repo.id == rid).map fun a => a.actor.id)

/-- The name/url the scan records for a repository: those of the first of
its push events whose repo name is non-empty; while every seen name is
empty the url keeps being overwritten (and the name stays empty). -/
def nameUrl (actions : List Action) (rid : Int) : String × String :=
  ((pushEvts actions).filter fun a => a.repo.id == rid).foldl
    (fun p a => if p.1 = "" then (a.repo.name, a.repo.url) else p) ("", "")

/-! ## Concrete sample events used for witnesses and counterexamples -/

/-- A push event by actor 1 at noon. -/
def actPush1 : Action :=
  ⟨"1", "PushEvent", true, ⟨1, "alice", "", ""⟩, ⟨1, "r1", "u1"⟩, "2015-01-01T12:00:00Z"⟩

/-- A push event by actor 2. -/
def actPush2 : Action :=
  ⟨"2", "PushEvent", true, ⟨2, "bob", "", ""⟩, ⟨1, "r1", "u1"⟩, "2015-01-01T13:00:00Z"⟩

/-- An issue event by actor 1. -/
def actIssue1 : Action :=
  ⟨"3", "IssuesEvent", true, ⟨1, "alice", "", ""⟩, ⟨1, "r1", "u1"⟩, "2015-01-01T00:00:00Z"⟩

/-- An event whose type is none of the three enumerated category tags. -/
def actWatch1 : Action :=
  ⟨"4", "WatchEvent", true, ⟨1, "alice", "", ""⟩, ⟨1, "r1", "u1"⟩, "2015-01-01T00:00:00Z"⟩

/-- A push event with an unpadded timestamp: it does not match the strict
`YYYY-MM-DDTHH:MM:SSZ` layout, yet `strptime` accepts it. -/
def actOddTs : Action :=
  ⟨"5", "PushEvent", true, ⟨1, "alice", "", ""⟩, ⟨1, "r1", "u1"⟩, "2015-1-1T1:2:3Z"⟩

/-- A push event at 10:00:00. -/
def actTen : Action :=
  ⟨"6", "PushEvent", true, ⟨1, "alice", "", ""⟩, ⟨1, "r1", "u1"⟩, "2015-01-01T10:00:00Z"⟩

/-- An event whose timestamp `strptime` rejects. -/
def actBadTs : Action :=
  ⟨"7", "PushEvent", true, ⟨1, "alice", "", ""⟩, ⟨1, "r1", "u1"⟩, "nope"⟩

/-- A push event whose repository snapshot has an empty name. -/
def pushEmptyName : Action :=
  ⟨"8", "PushEvent", true, ⟨1, "alice", "", ""⟩, ⟨1, "", "u1"⟩, "2015-01-01T00:00:00Z"⟩

/-- A later push to the same repository with a non-empty name. -/
def pushNamed : Action :=
  ⟨"9", "PushEvent", true, ⟨1, "alice", "", ""⟩, ⟨1, "x2", "u2"⟩, "2015-01-01T01:00:00Z"⟩

/-- A line whose object has `actor`/`repo` but no `created_at`. -/
def noCreatedFields : List (String × Json) :=
  [("actor", .obj []), ("repo", .obj []), ("id", .str "1"),
   ("type", .str "t"), ("public", .bool true)]

/-! ## Lemmas about the timestamp parser -/

theorem toDigit_toNat : ∀ n, n < 10 → (toDigit n).toNat = 48 + n := by decide

theorem daysInMonth_le_31 (y mo : Nat) : daysInMonth y mo ≤ 31 := by
  unfold daysInMonth
  split_ifs <;> omega

theorem pYear_pad4 (y : Nat) (hy : y ≤ 9999) (r : List Char) :
    pYear (pad4 y ++ r) = some (y, r) := by
  have h1 : y / 1000 < 10 := by omega
  have h2 : y / 100 % 10 < 10 := Nat.mod_lt _ (by norm_num)
  have h3 : y / 10 % 10 < 10 := Nat.mod_lt _ (by norm_num)
  have h4 : y % 10 < 10 := Nat.mod_lt _ (by norm_num)
  simp only [pad4, List.cons_append, List.nil_append, pYear]
  rw [toDigit_toNat _ h1, toDigit_toNat _ h2, toDigit_toNat _ h3, toDigit_toNat _ h4]
  rw [if_pos (by omega)]
  simp only [Option.some.injEq, Prod.mk.injEq]
  refine ⟨by omega, ?_⟩
  trivial

theorem monthAlts_pad2 (mo : Nat) (h1 : 1 ≤ mo) (h2 : mo ≤ 12) (rest : List Char) :
    ∃ t, monthAlts (pad2 mo ++ rest) = (mo, rest) :: t := by
  interval_cases mo <;> exact ⟨_, rfl⟩

theorem dayAlts_pad2 (d : Nat) (h1 : 1 ≤ d) (h2 : d ≤ 31) (rest : List Char) :
    ∃ t, dayAlts (pad2 d ++ rest) = (d, rest) :: t := by
  interval_cases d <;> exact ⟨_, rfl⟩

theorem hourAlts_pad2 (h : Nat) (h2 : h ≤ 23) (rest : List Char) :
    ∃ t, hourAlts (pad2 h ++ rest) = (h, rest) :: t := by
  interval_cases h <;> exact ⟨_, rfl⟩

theorem minuteAlts_pad2 (mi : Nat) (h2 : mi ≤ 59) (rest : List Char) :
    ∃ t, minuteAlts (pad2 mi ++ rest) = (mi, rest) :: t := by
  interval_cases mi <;> exact ⟨_, rfl⟩

theorem secondAlts_pad2 (s : Nat) (h2 : s ≤ 59) (rest : List Char) :
    ∃ t, secondAlts (pad2 s ++ rest) = (s, rest) :: t := by
  interval_cases s <;> exact ⟨_, rfl⟩

theorem firstValid_first {α : Type} (v : Nat) (r : List Char) (t : List (Nat × List Char))
    (k : Nat → List Char → Option α) (x : α) (h : k v r = some x) :
    firstValid ((v, r) :: t) k = some x := by
  simp [firstValid, h]

theorem pbind_some {β : Type} (v : Nat) (r : List Char) (f : Nat → List Char → Option β) :
    pbind (some (v, r)) f = f v r := rfl

theorem onext_some {β : Type} (r : List Char) (f : List Char → Option β) :
    onext (some r) f = f r := rfl

theorem expectC_self (c : Char) (r : List Char) : expectC c (c :: r) = some r := by
  simp [expectC]

theorem parseTs_renderTs (y mo d h mi s : Nat) (hv : validDT y mo d h mi s) :
    parseTs (renderTs y mo d h mi s) = some ⟨y, mo, d, h, mi, s⟩ := by
  obtain ⟨hy1, hy2, hm1, hm2, hd1, hd2, hh, hmi, hs⟩ := hv
  have hd31 : d ≤ 31 := le_trans hd2 (daysInMonth_le_31 y mo)
  obtain ⟨t2, e2⟩ := monthAlts_pad2 mo hm1 hm2
    ('-' :: (pad2 d ++ 'T' :: (pad2 h ++ ':' :: (pad2 mi ++ ':' :: (pad2 s ++ ['Z'])))))
  obtain ⟨t3, e3⟩ := dayAlts_pad2 d hd1 hd31
    ('T' :: (pad2 h ++ ':' :: (pad2 mi ++ ':' :: (pad2 s ++ ['Z']))))
  obtain ⟨t4, e4⟩ := hourAlts_pad2 h hh (':' :: (pad2 mi ++ ':' :: (pad2 s ++ ['Z'])))
  obtain ⟨t5, e5⟩ := minuteAlts_pad2 mi hmi (':' :: (pad2 s ++ ['Z']))
  obtain ⟨t6, e6⟩ := secondAlts_pad2 s hs ['Z']
  simp only [renderTs, parseTs]
  rw [pYear_pad4 y hy2]
  simp only [pbind_some, onext_some, expectC_self]
  rw [e2]
  apply firstValid_first
  simp only [onext_some, expectC_self]
  rw [e3]
  apply firstValid_first
  simp only [onext_some, expectC_self]
  rw [e4]
  apply firstValid_first
  simp only [onext_some, expectC_self]
  rw [e5]
  apply firstValid_first
  simp only [onext_some, expectC_self]
  rw [e6]
  apply firstValid_first
  simp only [onext_some, expectC_self]
  rw [if_pos ⟨trivial, hy1, hd2, hs⟩]

theorem timeSlice_renderTs (y mo d h mi s : Nat) :
    ((renderTs y mo d h mi s).drop 11).take 8 =
      pad2 h ++ ':' :: (pad2 mi ++ ':' :: pad2 s) := by
  rfl

theorem parse_of_wellFormed (str : String) (hw : wellFormedTs str) :
    ∃ dt, parseTs str.data = some dt ∧ timeOnlyStr dt = timeSlice str := by
  obtain ⟨y, mo, d, h, mi, s, hv, he⟩ := hw
  refine ⟨⟨y, mo, d, h, mi, s⟩, ?_, ?_⟩
  · rw [he]
    exact parseTs_renderTs y mo d h mi s hv
  · simp only [timeSlice, he, timeSlice_renderTs]
    rfl

/-! ## Lemmas about the actor counter and its ranking -/

theorem lookupD_updateCounter (m : List (Int × Nat)) (k q : Int) (inc : Nat) :
    lookupD (updateCounter m k inc) q = lookupD m q + (if k = q then inc else 0) := by
  induction m with
  | nil =>
    by_cases h : k = q <;> simp [updateCounter, lookupD, h]
  | cons p rest ih =>
    obtain ⟨a, b⟩ := p
    by_cases hak : a = k
    · subst hak
      by_cases haq : a = q <;> simp [updateCounter, lookupD, haq]
    · by_cases haq : a = q
      · subst haq
        have : ¬ k = a := fun hh => hak hh.symm
        simp [updateCounter, lookupD, hak, this]
      · simp [updateCounter, lookupD, hak, haq, ih]

theorem lookupD_buildUsers (actions : List Action) (f : String) (aid : Int) :
    lookupD (buildUsers actions f) aid = actions.countP (hitP f aid) := by
  have key : ∀ (l : List Action) (m : List (Int × Nat)),
      lookupD (l.foldl (fun m a => updateCounter m a.actor.id (incOf f a)) m) aid =
        lookupD m aid + l.countP (hitP f aid) := by
    intro l
    induction l with
    | nil => intro m; simp
    | cons a rest ih =>
      intro m
      simp only [List.foldl_cons, List.countP_cons]
      rw [ih, lookupD_updateCounter]
      have he : (if a.actor.id = aid then incOf f a else 0) =
          (if hitP f aid a then 1 else 0) := by
        by_cases h1 : a.actor.id = aid <;>
          by_cases h2 : a.type = f ∨ f = "any" <;>
            simp [hitP, incOf, h1, h2]
      rw [he]
      cases hq : hitP f aid a <;> (simp [hq]; try omega)
  simpa [buildUsers, lookupD] using key actions []

theorem keys_updateCounter (m : List (Int × Nat)) (k : Int) (inc : Nat) :
    (updateCounter m k inc).map Prod.fst =
      if k ∈ m.map Prod.fst then m.map Prod.fst else m.map Prod.fst ++ [k] := by
  induction m with
  | nil => simp [updateCounter]
  | cons p rest ih =>
    obtain ⟨a, b⟩ := p
    by_cases hak : a = k
    · subst hak
      simp [updateCounter]
    · have : ¬ k = a := fun hh => hak hh.symm
      simp only [updateCounter, if_neg hak, List.map_cons, List.mem_cons, this, false_or]
      rw [ih]
      by_cases hm : k ∈ rest.map Prod.fst <;> simp [hm]

theorem mem_keys_updateCounter (m : List (Int × Nat)) (k q : Int) (inc : Nat) :
    q ∈ (updateCounter m k inc).map Prod.fst ↔ q ∈ m.map Prod.fst ∨ q = k := by
  rw [keys_updateCounter]
  by_cases hm : k ∈ m.map Prod.fst
  · simp only [if_pos hm]
    constructor
    · exact fun h => Or.inl h
    · rintro (h | rfl)
      · exact h
      · exact hm
  · simp [if_neg hm]

theorem nodup_keys_updateCounter (m : List (Int × Nat)) (k : Int) (inc : Nat)
    (h : (m.map Prod.fst).Nodup) : ((updateCounter m k inc).map Prod.fst).Nodup := by
  rw [keys_updateCounter]
  by_cases hm : k ∈ m.map Prod.fst
  · simpa [hm] using h
  · simp [hm, List.nodup_append, h]

theorem mem_keys_buildUsers (actions : List Action) (f : String) (aid : Int) :
    aid ∈ (buildUsers actions f).map Prod.fst ↔
      aid ∈ actions.map fun a => a.actor.id := by
  have key : ∀ (l : List Action) (m : List (Int × Nat)),
      (aid ∈ (l.foldl (fun m a => updateCounter m a.actor.id (incOf f a)) m).map Prod.fst ↔
        aid ∈ m.map Prod.fst ∨ aid ∈ l.map fun a => a.actor.id) := by
    intro l
    induction l with
    | nil => intro m; simp
    | cons a rest ih =>
      intro m
      simp only [List.foldl_cons, List.map_cons, List.mem_cons]
      rw [ih, mem_keys_updateCounter]
      tauto
  simpa [buildUsers] using key actions []

theorem nodup_keys_buildUsers (actions : List Action) (f : String) :
    ((buildUsers actions f).map Prod.fst).Nodup := by
  have key : ∀ (l : List Action) (m : List (Int × Nat)), (m.map Prod.fst).Nodup →
      ((l.foldl (fun m a => updateCounter m a.actor.id (incOf f a)) m).map Prod.fst).Nodup := by
    intro l
    induction l with
    | nil => intro m hm; simpa using hm
    | cons a rest ih =>
      intro m hm
      exact ih _ (nodup_keys_updateCounter _ _ _ hm)
  simpa [buildUsers] using key actions [] (by simp)

theorem sortDesc_perm (l : List (Int × Nat)) : List.Perm (sortDesc l) l :=
  List.perm_insertionSort _ l

theorem sortDesc_sorted (l : List (Int × Nat)) :
    (sortDesc l).Sorted fun a b => b.2 ≤ a.2 :=
  List.sorted_insertionSort _ l

/-! ## Lemmas about the repository aggregation -/

theorem mem_dedupFirst (l : List Int) (a : Int) : a ∈ dedupFirst l ↔ a ∈ l := by
  induction l using dedupFirst.induct with
  | case1 => simp [dedupFirst]
  | case2 x xs ih =>
    rw [dedupFirst]
    simp only [List.mem_cons, ih, List.mem_filter, bne_iff_ne]
    by_cases hax : a = x <;> simp [hax]

theorem nodup_dedupFirst (l : List Int) : (dedupFirst l).Nodup := by
  induction l using dedupFirst.induct with
  | case1 => simp [dedupFirst]
  | case2 x xs ih =>
    rw [dedupFirst]
    simp only [List.nodup_cons, ih, and_true]
    rw [mem_dedupFirst]
    simp

theorem dedupFirst_append (x : Int) (l : List Int) :
    dedupFirst (l ++ [x]) = if x ∈ l then dedupFirst l else dedupFirst l ++ [x] := by
  induction l using dedupFirst.induct with
  | case1 => simp [dedupFirst]
  | case2 y ys ih =>
    simp only [List.cons_append, dedupFirst]
    rw [List.filter_append]
    by_cases hxy : x = y
    · subst hxy
      rw [show List.filter (fun z => z != x) [x] = [] from by simp]
      rw [List.append_nil, if_pos (List.mem_cons_self x ys)]
    · have hb : (x != y) = true := bne_iff_ne.mpr hxy
      have hmem : x ∈ ys.filter (fun z => z != y) ↔ x ∈ ys := by
        simp [List.mem_filter, hb]
      rw [show List.filter (fun z => z != y) [x] = [x] from by simp [hb]]
      rw [ih]
      by_cases hm : x ∈ ys
      · rw [if_pos (hmem.mpr hm), if_pos (List.mem_cons_of_mem y hm)]
      · rw [if_neg (fun hc => hm (hmem.mp hc)), if_neg (by simp [hxy, hm])]

theorem updRepo_map (l : List Int) (g : Int → RepoAgg) (rid : Int) (F : RepoAgg → RepoAgg)
    (hn : l.Nodup) :
    updRepo (l.map fun r => (r, g r)) rid F =
      if rid ∈ l then l.map (fun r => (r, if r = rid then F (g r) else g r))
      else (l.map fun r => (r, g r)) ++ [(rid, F emptyAgg)] := by
  induction l with
  | nil => simp [updRepo]
  | cons r0 rest ih =>
    have h0n : r0 ∉ rest := (List.nodup_cons.mp hn).1
    have hrn : rest.Nodup := (List.nodup_cons.mp hn).2
    by_cases h0 : r0 = rid
    · have hmem : rid ∈ r0 :: rest := List.mem_cons.mpr (Or.inl h0.symm)
      rw [if_pos hmem]
      simp only [List.map_cons, updRepo, if_pos h0]
      refine congrArg _ ?_
      refine (List.map_congr_left ?_).symm
      intro r hr
      have hrr : ¬ r = rid := by
        intro hc
        apply h0n
        rw [h0, ← hc]
        exact hr
      rw [if_neg hrr]
    · have h0q : ¬ rid = r0 := fun hc => h0 hc.symm
      simp only [List.map_cons, updRepo, if_neg h0, List.mem_cons, h0q, false_or]
      rw [ih hrn]
      by_cases hm : rid ∈ rest
      · rw [if_pos hm, if_pos hm]
      · rw [if_neg hm, if_neg hm, List.cons_append]

theorem pushEvts_append_push (as : List Action) (e : Action) (h : e.type = "PushEvent") :
    pushEvts (as ++ [e]) = pushEvts as ++ [e] := by
  simp [pushEvts, List.filter_append, h]

theorem pushEvts_append_nonpush (as : List Action) (e : Action) (h : ¬ e.type = "PushEvent") :
    pushEvts (as ++ [e]) = pushEvts as := by
  simp [pushEvts, List.filter_append, h]

theorem ridsInOrder_append_nonpush (as : List Action) (e : Action)
    (h : ¬ e.type = "PushEvent") : ridsInOrder (as ++ [e]) = ridsInOrder as := by
  simp [ridsInOrder, pushEvts_append_nonpush as e h]

theorem contribs_append_nonpush (as : List Action) (e : Action)
    (h : ¬ e.type = "PushEvent") (rid : Int) : contribs (as ++ [e]) rid = contribs as rid := by
  simp [contribs, pushEvts_append_nonpush as e h]

theorem nameUrl_append_nonpush (as : List Action) (e : Action)
    (h : ¬ e.type = "PushEvent") (rid : Int) : nameUrl (as ++ [e]) rid = nameUrl as rid := by
  simp [nameUrl, pushEvts_append_nonpush as e h]

theorem ridsInOrder_append_push (as : List Action) (e : Action) (h : e.type = "PushEvent") :
    ridsInOrder (as ++ [e]) =
      if e.repo.id ∈ ridsInOrder as then ridsInOrder as
      else ridsInOrder as ++ [e.repo.id] := by
  simp only [ridsInOrder, pushEvts_append_push as e h, List.map_append, List.map_cons,
    List.map_nil, dedupFirst_append, mem_dedupFirst]

theorem contribs_append_push_same (as : List Action) (e : Action) (h : e.type = "PushEvent") :
    contribs (as ++ [e]) e.repo.id =
      if e.actor.id ∈ contribs as e.repo.id then contribs as e.repo.id
      else contribs as e.repo.id ++ [e.actor.id] := by
  simp only [contribs, pushEvts_append_push as e h, List.filter_append,
    List.filter_cons, beq_self_eq_true, if_true, List.filter_nil, List.map_append,
    List.map_cons, List.map_nil, dedupFirst_append, mem_dedupFirst]

theorem contribs_append_push_other (as : List Action) (e : Action) (h : e.type = "PushEvent")
    (rid : Int) (hr : ¬ e.repo.id = rid) : contribs (as ++ [e]) rid = contribs as rid := by
  have hbe : (e.repo.id == rid) = false := beq_eq_false_iff_ne.mpr hr
  simp only [contribs, pushEvts_append_push as e h, List.filter_append,
    List.filter_cons, hbe, List.filter_nil, List.append_nil]
  simp

theorem nameUrl_append_push_same (as : List Action) (e : Action) (h : e.type = "PushEvent") :
    nameUrl (as ++ [e]) e.repo.id =
      if (nameUrl as e.repo.id).1 = "" then (e.repo.name, e.repo.url)
      else nameUrl as e.repo.id := by
  simp only [nameUrl, pushEvts_append_push as e h, List.filter_append,
    List.filter_cons, beq_self_eq_true, if_true, List.filter_nil, List.foldl_append,
    List.foldl_cons, List.foldl_nil]

theorem nameUrl_append_push_other (as : List Action) (e : Action) (h : e.type = "PushEvent")
    (rid : Int) (hr : ¬ e.repo.id = rid) : nameUrl (as ++ [e]) rid = nameUrl as rid := by
  have hbe : (e.repo.id == rid) = false := beq_eq_false_iff_ne.mpr hr
  simp only [nameUrl, pushEvts_append_push as e h, List.filter_append,
    List.filter_cons, hbe, List.filter_nil, List.append_nil]
  simp

theorem notMem_rids_filter_nil (as : List Action) (rid : Int)
    (hm : rid ∉ ridsInOrder as) :
    (pushEvts as).filter (fun a => a.repo.id == rid) = [] := by
  rw [List.filter_eq_nil_iff]
  intro a ha hbe
  apply hm
  rw [ridsInOrder, mem_dedupFirst]
  exact List.mem_map.mpr ⟨a, ha, (eq_of_beq hbe)⟩

/-- What the single pass of `filter_repo_commit`'s loop accumulates: one
entry per pushed-to repository, in first-seen order, holding the
first-nonempty-name name/url pair and the distinct contributor ids. -/
theorem foldl_pushStep_eq (actions : List Action) :
    actions.foldl pushStep [] =
      (ridsInOrder actions).map fun rid =>
        (rid, RepoAgg.mk (nameUrl actions rid).1 (nameUrl actions rid).2
          (contribs actions rid)) := by
  induction actions using List.reverseRecOn with
  | nil => simp [ridsInOrder, pushEvts, dedupFirst]
  | append_singleton as e ih =>
    rw [List.foldl_append, List.foldl_cons, List.foldl_nil, ih]
    by_cases hp : e.type = "PushEvent"
    · simp only [pushStep, if_pos hp]
      have hnodup : (ridsInOrder as).Nodup := nodup_dedupFirst _
      rw [updRepo_map (ridsInOrder as) _ e.repo.id _ hnodup]
      rw [ridsInOrder_append_push as e hp]
      by_cases hm : e.repo.id ∈ ridsInOrder as
      · rw [if_pos hm, if_pos hm]
        refine List.map_congr_left ?_
        intro r hr
        by_cases hr0 : r = e.repo.id
        · subst hr0
          rw [if_pos rfl, nameUrl_append_push_same as e hp, contribs_append_push_same as e hp]
          by_cases hname : (nameUrl as e.repo.id).1 = "" <;>
            by_cases huser : e.actor.id ∈ contribs as e.repo.id <;>
              simp [hname, huser]
        · rw [if_neg hr0, nameUrl_append_push_other as e hp r (fun hc => hr0 hc.symm),
            contribs_append_push_other as e hp r (fun hc => hr0 hc.symm)]
      · rw [if_neg hm, if_neg hm, List.map_append]
        have hnil := notMem_rids_filter_nil as e.repo.id hm
        refine congrArg₂ (fun x y => x ++ y) ?_ ?_
        · refine List.map_congr_left ?_
          intro r hr
          have hne : ¬ e.repo.id = r := fun hc => hm (by rw [hc]; exact hr)
          rw [nameUrl_append_push_other as e hp r hne, contribs_append_push_other as e hp r hne]
        · simp only [List.map_cons, List.map_nil]
          have h1 : nameUrl (as ++ [e]) e.repo.id = (e.repo.name, e.repo.url) := by
            rw [nameUrl_append_push_same as e hp]
            have h0 : nameUrl as e.repo.id = ("", "") := by
              simp only [nameUrl, hnil, List.foldl_nil]
            rw [h0]
            rfl
          have h2 : contribs (as ++ [e]) e.repo.id = [e.actor.id] := by
            rw [contribs_append_push_same as e hp]
            have h0 : contribs as e.repo.id = [] := by
              simp only [contribs, hnil, List.map_nil, dedupFirst]
            rw [h0]
            simp [dedupFirst]
          rw [h1, h2]
          simp [emptyAgg]
    · simp only [pushStep, if_neg hp]
      rw [ridsInOrder_append_nonpush as e hp]
      refine List.map_congr_left ?_
      intro r hr
      rw [nameUrl_append_nonpush as e hp r, contribs_append_nonpush as e hp r]

theorem map_filter_map {α β γ : Type} (l : List α) (f : α → β) (q : β → Bool) (h : β → γ) :
    ((l.map f).filter q).map h =
      l.filterMap fun a => if q (f a) then some (h (f a)) else none := by
  induction l with
  | nil => rfl
  | cons a rest ih =>
    by_cases hq : q (f a) <;> simp [List.filter_cons, hq, ih, List.filterMap_cons]

/-! ## Lemmas about the reader's per-line decoding -/

theorem requireField_of_none (fs : List (String × Json)) (k : String)
    (h : lookupJson fs k = none) : requireField fs k = .error .typeError := by
  unfold requireField
  rw [h]

theorem requireField_error_eq (fs : List (String × Json)) (k : String) (e : PyError)
    (h : requireField fs k = .error e) : e = .typeError := by
  unfold requireField at h
  cases hl : lookupJson fs k <;> rw [hl] at h
  · injection h with h2
    exact h2.symm
  · exact Except.noConfusion h

theorem buildAction_missing (fs : List (String × Json)) (k : String)
    (hk : k = "id" ∨ k = "type" ∨ k = "public" ∨ k = "actor" ∨ k = "repo" ∨
      k = "created_at")
    (hmiss : lookupJson fs k = none) :
    buildAction (Json.obj fs) = .error .typeError := by
  simp only [buildAction]
  cases h1 : requireField fs "id" with
  | error e => rw [requireField_error_eq fs "id" e h1]
  | ok v1 =>
  cases h2 : requireField fs "type" with
  | error e => rw [requireField_error_eq fs "type" e h2]
  | ok v2 =>
  cases h3 : requireField fs "public" with
  | error e => rw [requireField_error_eq fs "public" e h3]
  | ok v3 =>
  cases h4 : requireField fs "actor" with
  | error e => rw [requireField_error_eq fs "actor" e h4]
  | ok v4 =>
  cases h5 : requireField fs "repo" with
  | error e => rw [requireField_error_eq fs "repo" e h5]
  | ok v5 =>
  cases h6 : requireField fs "created_at" with
  | error e => rw [requireField_error_eq fs "created_at" e h6]
  | ok v6 =>
  exfalso
  rcases hk with rfl | rfl | rfl | rfl | rfl | rfl
  · rw [requireField_of_none fs _ hmiss] at h1; exact Except.noConfusion h1
  · rw [requireField_of_none fs _ hmiss] at h2; exact Except.noConfusion h2
  · rw [requireField_of_none fs _ hmiss] at h3; exact Except.noConfusion h3
  · rw [requireField_of_none fs _ hmiss] at h4; exact Except.noConfusion h4
  · rw [requireField_of_none fs _ hmiss] at h5; exact Except.noConfusion h5
  · rw [requireField_of_none fs _ hmiss] at h6; exact Except.noConfusion h6

theorem buildAction_nonObj (j : Json) (hj : ∀ fs, j ≠ Json.obj fs) :
    buildAction j = .error .attributeError := by
  cases j with
  | obj fs => exact absurd rfl (hj fs)
  | null => rfl
  | bool b => rfl
  | num n => rfl
  | str s => rfl
  | arr elems => rfl

theorem decodeLine_fatal_of_missing (fs : List (String × Json)) (k : String)
    (hk : k = "id" ∨ k = "type" ∨ k = "public" ∨ k = "actor" ∨ k = "repo" ∨
      k = "created_at")
    (hmiss : lookupJson fs k = none) :
    decodeLine (some (Json.obj fs)) = .fatal .typeError := by
  simp only [decodeLine, buildAction_missing fs k hk hmiss]

theorem decodeLine_fatal_of_nonObj (j : Json) (hj : ∀ fs, j ≠ Json.obj fs) :
    decodeLine (some j) = .fatal .attributeError := by
  simp only [decodeLine, buildAction_nonObj j hj]

theorem readLines_abort (l : Option Json) (rest : List (Option Json)) (e : PyError)
    (h : decodeLine l = .fatal e) : readLines (l :: rest) = ([], some e) := by
  simp only [readLines, h]

/-! ## Lemmas about the time-of-day scan -/

theorem commits_at_ok (actions : List Action) (target : String)
    (hwf : ∀ a ∈ actions, wellFormedTs a.created_at) :
    commits_at actions target =
      .ok (actions.any fun a => timeSlice a.created_at == target) := by
  induction actions with
  | nil => rfl
  | cons a rest ih =>
    obtain ⟨dt, hp, ht⟩ := parse_of_wellFormed _ (hwf a (List.mem_cons_self a rest))
    simp only [commits_at, hp, ht, List.any_cons]
    by_cases hq : timeSlice a.created_at = target
    · simp [hq]
    · have hb : (timeSlice a.created_at == target) = false := beq_eq_false_iff_ne.mpr hq
      simp only [hq, if_false, hb, Bool.false_or]
      exact ih fun b hb2 => hwf b (List.mem_cons_of_mem a hb2)

theorem commits_at_error (pre : List Action) (bad : Action) (post : List Action)
    (target : String)
    (hpre : ∀ a ∈ pre, ∃ dt, parseTs a.created_at.data = some dt ∧ timeOnlyStr dt ≠ target)
    (hbad : parseTs bad.created_at.data = none) :
    commits_at (pre ++ bad :: post) target = .error .valueError := by
  induction pre with
  | nil => simp only [List.nil_append, commits_at, hbad]
  | cons a rest ih =>
    obtain ⟨dt, hp, ht⟩ := hpre a (List.mem_cons_self a rest)
    simp only [List.cons_append, commits_at, hp, if_neg ht]
    exact ih fun b hb => hpre b (List.mem_cons_of_mem a hb)

theorem renderTs_length (y mo d h mi s : Nat) : (renderTs y mo d h mi s).length = 20 := by
  simp [renderTs, pad2, pad4]

/-! ## Lemmas about the reader constructor -/

theorem dataReaderInit_file_mode (listing : String → List String) (d f : String)
    (hf : ¬ f = "") :
    dataReaderInit listing (some d) (some f) = .ok [pyJoin d f] := by
  simp [dataReaderInit, truthyOpt, hf]

theorem dataReaderInit_file_no_dir (listing : String → List String) (f : String)
    (hf : ¬ f = "") :
    dataReaderInit listing none (some f) = .error .typeError := by
  simp [dataReaderInit, truthyOpt, hf]

theorem dataReaderInit_neither (listing : String → List String) :
    dataReaderInit listing none none = .error .valueError := rfl

theorem dataReaderInit_error_iff (listing : String → List String)
    (dir file : Option String) :
    (∃ e, dataReaderInit listing dir file = .error e) ↔
      (truthyOpt file = false ∧ truthyOpt dir = false) ∨
      (truthyOpt file = true ∧ dir = none) := by
  rcases file with _ | f
  · rcases dir with _ | d
    · simp [dataReaderInit, truthyOpt]
    · by_cases hd : d = "" <;> simp [dataReaderInit, truthyOpt, hd]
  · by_cases hf : f = ""
    · subst hf
      rcases dir with _ | d
      · simp [dataReaderInit, truthyOpt]
      · by_cases hd : d = "" <;> simp [dataReaderInit, truthyOpt, hd]
    · rcases dir with _ | d <;> simp [dataReaderInit, truthyOpt, hf]

theorem readerRun_single (contents : String → List (Option Json)) (p : String) :
    readerRun contents [p] = readLines (contents p) := by
  simp [readerRun]

/-! ## The claims -/

/-- Claim C1.  The spec (and the reader's own `except KeyError` diagnostic
handler) intends incomplete lines to be skipped, but an incomplete line
aborts the scan: on a file whose first line is complete and whose second
line lacks the `actor` key, iteration yields the first event and then
raises an uncaught `TypeError` from `Action(**filtered_data)` (the
`KeyError` handler is unreachable), instead of skipping the line.  Lines
that fail JSON decoding are, by contrast, skipped as claimed. -/
theorem C1_incomplete_line_aborts :
    readLines [some goodLine, some noActorLine] = ([goodAction], some .typeError) ∧
    readLines [none, some goodLine] = ([goodAction], none) := by
  constructor
  · rfl
  · rfl

/-- Claim C9.  A line that decodes to a non-object value aborts iteration
with an uncaught `AttributeError`, and a line that decodes to an object
having `actor` and `repo` but lacking one of the other required fields
(`id`, `type`, `public`, `created_at`) aborts with an uncaught
`TypeError`: in both cases the line is neither yielded nor skipped and no
further line is processed. -/
theorem C9_nonobject_or_missing_field_aborts (j : Json)
    (hj : ∀ fs, j ≠ Json.obj fs) (fs : List (String × Json)) (k : String)
    (_ha : lookupJson fs "actor" ≠ none) (_hr : lookupJson fs "repo" ≠ none)
    (hk : k = "id" ∨ k = "type" ∨ k = "public" ∨ k = "created_at")
    (hmiss : lookupJson fs k = none) (rest : List (Option Json)) :
    readLines (some j :: rest) = ([], some .attributeError) ∧
    readLines (some (Json.obj fs) :: rest) = ([], some .typeError) := by
  constructor
  · exact readLines_abort _ _ _ (decodeLine_fatal_of_nonObj j hj)
  · refine readLines_abort _ _ _ (decodeLine_fatal_of_missing fs k ?_ hmiss)
    tauto

/-- Witness for C9: a bare number line, and an object line with `actor`
and `repo` but no `created_at`. -/
theorem C9_witness :
    readLines [some (Json.num 5)] = ([], some .attributeError) ∧
    readLines [some (Json.obj noCreatedFields)] = ([], some .typeError) := by
  have h := C9_nonobject_or_missing_field_aborts (Json.num 5)
    (fun fs hc => Json.noConfusion hc) noCreatedFields "created_at"
    (by intro hc
        rw [show lookupJson noCreatedFields "actor" = some (Json.obj []) from rfl] at hc
        exact Option.noConfusion hc)
    (by intro hc
        rw [show lookupJson noCreatedFields "repo" = some (Json.obj []) from rfl] at hc
        exact Option.noConfusion hc)
    (by tauto) rfl []
  exact h

/-- Claim C7 (corrected).  Construction raises `ValueError` exactly when
both arguments are falsy, but a truthy `file` with no `directory` does not
succeed: `os.path.join(None, file)` raises `TypeError`.  With both
supplied, the file list is exactly the single joined path, and running the
reader consumes exactly that file's lines. -/
theorem C7_construction_characterization (listing : String → List String)
    (dir file : Option String) :
    ((∃ e, dataReaderInit listing dir file = .error e) ↔
      (truthyOpt file = false ∧ truthyOpt dir = false) ∨
      (truthyOpt file = true ∧ dir = none)) ∧
    (∀ d f, ¬ f = "" → dataReaderInit listing (some d) (some f) = .ok [pyJoin d f]) ∧
    (∀ f, ¬ f = "" → dataReaderInit listing none (some f) = .error .typeError) ∧
    (dataReaderInit listing none none = .error .valueError) ∧
    (∀ contents p, readerRun contents [p] = readLines (contents p)) := by
  refine ⟨dataReaderInit_error_iff listing dir file, ?_, ?_, rfl, ?_⟩
  · intro d f hf
    exact dataReaderInit_file_mode listing d f hf
  · intro f hf
    exact dataReaderInit_file_no_dir listing f hf
  · intro contents p
    exact readerRun_single contents p

/-- Witness for C7: a concrete single-file construction. -/
theorem C7_witness :
    dataReaderInit (fun _ => []) (some "data") (some "x.json") = .ok ["data/x.json"] := by
  have h := (C7_construction_characterization (fun _ => []) (some "data")
    (some "x.json")).2.1 "data" "x.json" (by decide)
  rw [h]
  rfl

/-- Counterexample for C7: constructing from a file alone (no directory)
does not succeed as the claim states; it raises `TypeError`. -/
theorem C7_counterexample :
    dataReaderInit (fun _ => []) none (some "x.json") = .error .typeError := rfl

/-- Claim C10.  Each query method, embedded as a receiver-state
transformer, leaves the engine's buffer unchanged, and a repeated call
with identical arguments returns the same result. -/
theorem C10_queries_pure (e : AnalyticsEngine) (k : Int) (c : Option ActionCategory)
    (t : String) (mx : Int) (mn : Option Int) :
    (e.topKQ k c).1 = e ∧ (e.commitsAtQ t).1 = e ∧ (e.filterRepoQ mx mn).1 = e ∧
    ((e.topKQ k c).1.topKQ k c).2 = (e.topKQ k c).2 ∧
    ((e.commitsAtQ t).1.commitsAtQ t).2 = (e.commitsAtQ t).2 ∧
    ((e.filterRepoQ mx mn).1.filterRepoQ mx mn).2 = (e.filterRepoQ mx mn).2 :=
  ⟨rfl, rfl, rfl, rfl, rfl, rfl⟩

/-- Claim C2 (corrected).  The counter map gets an entry for every actor
that appears in any event, whatever the filter: the `defaultdict`
subscript inside `+=` inserts the key even when the added boolean is 0.
An actor's entry counts exactly the matching events (possibly zero). -/
theorem C2_counter_membership (actions : List Action) (f : String) :
    ((buildUsers actions f).map Prod.fst).Nodup ∧
    (∀ aid, aid ∈ (buildUsers actions f).map Prod.fst ↔
      aid ∈ actions.map fun a => a.actor.id) ∧
    (∀ aid, lookupD (buildUsers actions f) aid = actions.countP (hitP f aid)) :=
  ⟨nodup_keys_buildUsers actions f, fun aid => mem_keys_buildUsers actions f aid,
    fun aid => lookupD_buildUsers actions f aid⟩

/-- Counterexample for C2: an actor whose only event fails the PushEvent
filter is inserted into the counter with score 0 and is returned by the
ranking, contradicting the claim that it is never inserted. -/
theorem C2_counterexample :
    buildUsers [actIssue1] "PushEvent" = [(1, 0)] ∧
    top_k_users_by [actIssue1] 1 (some .COMMITS) = [⟨1, 0⟩] ∧
    (∀ a ∈ [actIssue1], ¬ (a.type = "PushEvent" ∨ "PushEvent" = "any")) := by
  decide

/-- Claim C3 (corrected).  The ANY score of an actor equals the sum of
the actor's scores under the three concrete categories plus the number of
the actor's events whose type is none of the three tags; the plain sum
alone undercounts whenever such an event exists. -/
theorem C3_any_decomposition (actions : List Action) (aid : Int) :
    scoreOf actions (some .ACTIVITY) aid =
      scoreOf actions (some .PRS) aid + scoreOf actions (some .ISSUES) aid +
        scoreOf actions (some .COMMITS) aid +
        actions.countP fun a => decide (a.actor.id = aid) &&
          !(a.type == "PullRequestEvent" || a.type == "IssuesEvent" ||
            a.type == "PushEvent") := by
  simp only [scoreOf, actionFilterOf, ActionCategory.value]
  rw [lookupD_buildUsers, lookupD_buildUsers, lookupD_buildUsers, lookupD_buildUsers]
  induction actions with
  | nil => rfl
  | cons a rest ih =>
    simp only [List.countP_cons]
    rw [ih]
    have hsum : (if hitP "any" aid a then 1 else 0) =
        (if hitP "PullRequestEvent" aid a then 1 else 0) +
        (if hitP "IssuesEvent" aid a then 1 else 0) +
        (if hitP "PushEvent" aid a then 1 else 0) +
        (if (decide (a.actor.id = aid) && !(a.type == "PullRequestEvent" ||
          a.type == "IssuesEvent" || a.type == "PushEvent")) then 1 else 0) := by
      by_cases h1 : a.actor.id = aid
      · cases hb1 : a.type == "PullRequestEvent" <;>
          cases hb2 : a.type == "IssuesEvent" <;>
            cases hb3 : a.type == "PushEvent"
        · simp [hitP, h1, hb1, hb2, hb3, beq_eq_false_iff_ne.mp hb1,
            beq_eq_false_iff_ne.mp hb2, beq_eq_false_iff_ne.mp hb3]
        · simp [hitP, h1, hb1, hb2, hb3, beq_eq_false_iff_ne.mp hb1,
            beq_eq_false_iff_ne.mp hb2, eq_of_beq hb3]
        · simp [hitP, h1, hb1, hb2, hb3, beq_eq_false_iff_ne.mp hb1,
            beq_eq_false_iff_ne.mp hb3, eq_of_beq hb2]
        · exact absurd ((eq_of_beq hb2).symm.trans (eq_of_beq hb3)) (by decide)
        · simp [hitP, h1, hb1, hb2, hb3, beq_eq_false_iff_ne.mp hb2,
            beq_eq_false_iff_ne.mp hb3, eq_of_beq hb1]
        · exact absurd ((eq_of_beq hb1).symm.trans (eq_of_beq hb3)) (by decide)
        · exact absurd ((eq_of_beq hb1).symm.trans (eq_of_beq hb2)) (by decide)
        · exact absurd ((eq_of_beq hb1).symm.trans (eq_of_beq hb2)) (by decide)
      · simp [hitP, h1]
    rw [hsum]
    omega

/-- Counterexample for C3: a single WatchEvent gives its actor ANY score
1 while the per-category scores sum to 0. -/
theorem C3_counterexample :
    scoreOf [actWatch1] (some .ACTIVITY) 1 = 1 ∧
    scoreOf [actWatch1] (some .PRS) 1 + scoreOf [actWatch1] (some .ISSUES) 1 +
      scoreOf [actWatch1] (some .COMMITS) 1 = 0 := by
  decide

/-- Claim C4 (corrected).  The ranking is the counter's entries sorted by
score descending; a nonnegative `k` returns its first `k` entries (fewer
when the ranking is shorter) and `k = 0` returns the empty list, but a
negative `k` follows Python slice semantics and returns all but the last
`|k|` entries rather than the empty list. -/
theorem C4_slice_characterization (actions : List Action)
    (category : Option ActionCategory) :
    (sortDesc (buildUsers actions (actionFilterOf category))).Sorted
      (fun a b => b.2 ≤ a.2) ∧
    List.Perm (sortDesc (buildUsers actions (actionFilterOf category)))
      (buildUsers actions (actionFilterOf category)) ∧
    (∀ k : Int, 0 ≤ k → top_k_users_by actions k category =
      ((sortDesc (buildUsers actions (actionFilterOf category))).take k.toNat).map
        fun p => ⟨p.1, p.2⟩) ∧
    (∀ k : Int, k < 0 → top_k_users_by actions k category =
      ((sortDesc (buildUsers actions (actionFilterOf category))).take
        (((sortDesc (buildUsers actions (actionFilterOf category))).length : Int)
          + k).toNat).map fun p => ⟨p.1, p.2⟩) ∧
    top_k_users_by actions 0 category = [] := by
  refine ⟨sortDesc_sorted _, sortDesc_perm _, ?_, ?_, ?_⟩
  · intro k hk
    simp [top_k_users_by, pySliceTo, hk]
  · intro k hk
    simp [top_k_users_by, pySliceTo, not_le.mpr hk]
  · simp [top_k_users_by, pySliceTo]

/-- Witness for C4: two tied single-push actors, `k = 1`. -/
theorem C4_witness :
    top_k_users_by [actPush1, actPush2] 1 none = [⟨1, 1⟩] := by
  have h := (C4_slice_characterization [actPush1, actPush2] none).2.2.1 1 (by decide)
  rw [h]
  decide

/-- Counterexample for C4: with two ranked actors, `k = -1` returns one
entry instead of the empty sequence the claim requires for `k <= 0`. -/
theorem C4_counterexample :
    top_k_users_by [actPush1, actPush2] (-1) none = [⟨1, 1⟩] ∧ (-1 : Int) ≤ 0 := by
  decide

/-- Claim C5 (corrected).  The scan uses only push events, one result row
per pushed-to repository, counting distinct contributors, and a row is
kept exactly when the count passes the max/optional-min test; but the
name/url recorded are those of the first push event with a non-empty
repository name (the url keeps being overwritten while the name is
empty), not of the first push event outright. -/
theorem C5_characterization (actions : List Action) (mx : Int) (mn : Option Int) :
    filter_repo_commit actions mx mn =
      (ridsInOrder actions).filterMap fun rid =>
        if inRangeCond mx mn (contribs actions rid).length then
          some ⟨(nameUrl actions rid).1, (nameUrl actions rid).2,
            (contribs actions rid).length⟩
        else none := by
  unfold filter_repo_commit
  rw [foldl_pushStep_eq, map_filter_map]

/-- Counterexample for C5: when the first push to a repository carries an
empty repo name, the produced row holds the second event's name and url,
not the first-seen ones. -/
theorem C5_counterexample :
    filter_repo_commit [pushEmptyName, pushNamed] 5 none = [⟨"x2", "u2", 1⟩] ∧
    ((pushEvts [pushEmptyName, pushNamed]).map fun a => (a.repo.name, a.repo.url)) =
      [("", "u1"), ("x2", "u2")] ∧
    ¬ ("x2", "u2") = (("" : String), ("u1" : String)) := by
  refine ⟨?_, ?_, ?_⟩
  · decide
  · decide
  · decide

/-- Claim C6.  Over a buffer of strict-format timestamps the query returns
no error, and its boolean is true exactly when some event's literal
time-of-day substring equals the target (so also false on the empty
buffer); no timezone conversion is involved. -/
theorem C6_exact_time_scan (actions : List Action) (target : String)
    (hwf : ∀ a ∈ actions, wellFormedTs a.created_at) :
    commits_at actions target =
      .ok (actions.any fun a => timeSlice a.created_at == target) :=
  commits_at_ok actions target hwf

/-- Witness for C6: one well-formed noon event, target noon. -/
theorem C6_witness : commits_at [actPush1] "12:00:00" = .ok true := by
  have h := C6_exact_time_scan [actPush1] "12:00:00" (by
    intro a ha
    rw [List.mem_singleton] at ha
    subst ha
    exact ⟨2015, 1, 1, 12, 0, 0, by decide, by decide⟩)
  rw [h]
  rfl

/-- Claim C8 (corrected).  An event whose `created_at` the `strptime`
pattern rejects makes the query raise `ValueError` once reached (all
earlier events parse and miss the target), so the error propagates to the
caller; but "not matching `YYYY-MM-DDTHH:MM:SSZ`" is not sufficient:
`strptime` also accepts unpadded fields, so such a timestamp is parsed
without error. -/
theorem C8_unparseable_raises (pre : List Action) (bad : Action) (post : List Action)
    (target : String)
    (hpre : ∀ a ∈ pre, ∃ dt, parseTs a.created_at.data = some dt ∧
      timeOnlyStr dt ≠ target)
    (hbad : parseTs bad.created_at.data = none) :
    commits_at (pre ++ bad :: post) target = .error .valueError :=
  commits_at_error pre bad post target hpre hbad

/-- Witness for C8: a good 10:00:00 event followed by an unparseable one,
target noon. -/
theorem C8_witness : commits_at [actTen, actBadTs] "12:00:00" = .error .valueError := by
  have h := C8_unparseable_raises [actTen] actBadTs [] "12:00:00" (by
    intro a ha
    rw [List.mem_singleton] at ha
    subst ha
    exact ⟨⟨2015, 1, 1, 10, 0, 0⟩, by decide, by decide⟩) (by decide)
  exact h

/-- Counterexample for C8: `2015-1-1T1:2:3Z` does not match the strict
`YYYY-MM-DDTHH:MM:SSZ` format, yet the scan completes without raising. -/
theorem C8_counterexample :
    commits_at [actOddTs] "23:59:59" = .ok false ∧
    ¬ wellFormedTs "2015-1-1T1:2:3Z" := by
  constructor
  · rfl
  · rintro ⟨y, mo, d, h, mi, s, hv, he⟩
    have hlen := congrArg List.length he
    rw [renderTs_length] at hlen
    simp at hlen

end App
